import Mathlib

/-
Verification of the shift auto-fill engine of the employee scheduler
(src/main.py, src/database.py).

Modelling conventions:
- Calendar dates (the `date_str` strings of the source, format YYYY-MM-DD) are
  modelled as integers counting days; lexicographic comparison of zero-padded
  ISO date strings agrees with the date order, and `start_date + timedelta(days=i)`
  becomes integer addition.  `week_dates[i]` is `start + i`.
- Python dicts keyed by employee/location ids become total functions with the
  default the source installs for every roster member (the engine only ever
  reads keys it has installed), except in the mapping-build step where the
  source uses `dict[key].append(...)`, which raises `KeyError` for a missing
  key; that step is modelled with association lists and an `Except` monad.
- `random.shuffle` / `random.random()` are modelled by parameters of the
  environment: an arbitrary day-index list, an arbitrary per-iteration location
  order, and an arbitrary rational-valued stream consumed through a counter
  (`random.random()` returns a float in [0, 1); theorems that need the range
  take it as a hypothesis).
- Scores (Python floats built from integers, the bonuses 100/50/20 and one
  `random.random()` term) are modelled as rationals; every quantity the score
  combines is exactly representable, so no floating-point rounding is involved.
-/

/-- Employee as used by the smart auto-fill algorithm in main.py: the code
reads `emp.id` and `emp.priority` (sort key and score term).  The `name` and
`active` columns also exist on the table; `active` is already accounted for
because the engine fetches only active employees. -/
structure Worker where
  id : Int
  name : String
  active : Bool
  priority : Int
deriving DecidableEq, Repr

/-- Location row: id and name (database.py, class Location). -/
structure Location where
  id : Int
  name : String
deriving DecidableEq, Repr

/-- Shift row as created by the engine: (employee_id, location_id, date_str);
the date string is modelled as an integer day number. -/
structure Shift where
  employee_id : Int
  location_id : Int
  date : Int
deriving DecidableEq, Repr

/-- Environment of one smart-mode run: the data fetched and the mappings built
in autofill_schedule (main.py lines 205-236), plus the sources of randomness.
`dayIdx` is the shuffled list of day indices, `locOrder p` the shuffled
location list used at the p-th iteration of the Phase-2 day loop, and `rand`
the stream of `random.random()` results consumed left to right. -/
structure Env where
  employees : List Worker
  locations : List Location
  prefMap : Int → List Int
  empTargets : Int → Int × Int
  badDays : Int → List Int
  badLocs : Int → List Int
  locMinMax : Int → Int × Int
  start : Int
  dayIdx : List Nat
  locOrder : Nat → List Location
  rand : Nat → ℚ

/-- Mutable state of a smart-mode run (main.py lines 233-236): the accumulated
`session.add`ed shifts, `emp_days_assigned`, `loc_day_counts`,
`emp_working_today`, and the position reached in the random stream. -/
structure SState where
  shifts : List Shift
  daysAssigned : Int → Nat
  locDayCounts : Int → Int → Nat
  workingToday : Int → Int → Bool
  rIdx : Nat

/-- Fresh state at the start of a run: all counters zero, no shifts. -/
def initState : SState :=
  { shifts := []
    daysAssigned := fun _ => 0
    locDayCounts := fun _ _ => 0
    workingToday := fun _ _ => false
    rIdx := 0 }

/-- The eligibility predicate is_available (main.py lines 238-243). -/
def is_available (env : Env) (s : SState) (empId date dayIdx locId : Int) : Bool :=
  if (env.empTargets empId).2 ≤ (s.daysAssigned empId : Int) then false
  else if dayIdx ∈ env.badDays empId then false
  else if locId ∈ env.badLocs empId then false
  else if s.workingToday empId date then false
  else true

/-- The assign helper (main.py lines 245-250): add the shift, bump the
worker's day counter, bump the location/day occupancy, set the working flag. -/
def assign (s : SState) (empId locId date : Int) : SState :=
  { shifts := s.shifts ++ [⟨empId, locId, date⟩]
    daysAssigned := fun e => if e = empId then s.daysAssigned e + 1 else s.daysAssigned e
    locDayCounts := fun l d =>
      if l = locId ∧ d = date then s.locDayCounts l d + 1 else s.locDayCounts l d
    workingToday := fun e d => if e = empId ∧ d = date then true else s.workingToday e d
    rIdx := s.rIdx }

/-- Stable insertion into a list sorted by ascending priority; an element is
inserted after strictly smaller keys and before equal ones, matching the
stability of Python's list.sort. -/
def insertByPriority (w : Worker) : List Worker → List Worker
  | [] => [w]
  | x :: xs => if x.priority < w.priority then x :: insertByPriority w xs else w :: x :: xs

/-- Stable ascending sort by priority, modelling
`employees.sort(key=lambda x: x.priority)` (main.py line 256). -/
def sortByPriority (ws : List Worker) : List Worker := ws.foldr insertByPriority []

/-- Phase 1 inner loop (main.py lines 278-285): try the worker's preferred
locations in order; assign at the first one that is under its staffing max and
passes is_available, then stop. -/
def phase1TryLocs (env : Env) (empId date dayIdx : Int) : List Int → SState → SState
  | [], s => s
  | ploc :: rest, s =>
    if (s.locDayCounts ploc date : Int) < (env.locMinMax ploc).2
        ∧ is_available env s empId date dayIdx ploc = true then
      assign s empId ploc date
    else phase1TryLocs env empId date dayIdx rest s

/-- Phase 1 day loop for one worker (main.py lines 272-285), breaking once the
worker has reached `days_wanted` (their target-days max). -/
def phase1Days (env : Env) (empId : Int) : List Nat → SState → SState
  | [], s => s
  | i :: rest, s =>
    if (env.empTargets empId).2 ≤ (s.daysAssigned empId : Int) then s
    else phase1Days env empId rest
      (phase1TryLocs env empId (env.start + (i : Int)) (i : Int) (env.prefMap empId) s)

/-- Phase 1 body for one worker (main.py lines 265-270): workers with no
preferences are skipped. -/
def phase1Worker (env : Env) (s : SState) (emp : Worker) : SState :=
  if env.prefMap emp.id = [] then s
  else phase1Days env emp.id env.dayIdx s

/-- Phase 1 (main.py lines 258-285): iterate the priority-sorted workers. -/
def phase1 (env : Env) : List Worker → SState → SState
  | [], s => s
  | w :: rest, s => phase1 env rest (phase1Worker env s w)

/-- Rational addition computed through numerators and denominators.  This is
provably equal to Rat addition (qadd_eq_add below); it is spelled out so that
concrete runs evaluate inside the kernel, which does not unfold Rat.add. -/
def qadd (a b : ℚ) : ℚ :=
  Rat.divInt (a.num * (b.den : Int) + b.num * (a.den : Int)) ((a.den : Int) * (b.den : Int))

/-- Rational multiplication computed through numerators and denominators,
provably equal to Rat multiplication (qmul_eq_mul below). -/
def qmul (a b : ℚ) : ℚ :=
  Rat.divInt (a.num * b.num) ((a.den : Int) * (b.den : Int))

/-- Phase 2 candidate score (main.py lines 305-316): huge priority weight,
preference bonus 50, need bonus 20, plus one random.random() draw.  The float
arithmetic of the source is exact on these values, so rational arithmetic
models it faithfully. -/
def scoreOf (env : Env) (s : SState) (emp : Worker) (locId : Int) (r : ℚ) : ℚ :=
  qadd (qadd (qadd (qmul ((5 - emp.priority : Int) : ℚ) 100)
    (if locId ∈ env.prefMap emp.id then (50 : ℚ) else 0))
    (if (s.daysAssigned emp.id : Int) < (env.empTargets emp.id).1 then (20 : ℚ) else 0)) r

/-- Phase 2 candidate collection (main.py lines 302-317): every available
worker becomes a candidate, consuming one random draw; `n` is the position in
the random stream, and the updated position is returned. -/
def mkCandidates (env : Env) (s : SState) (date dayIdx locId : Int) :
    List Worker → Nat → List (ℚ × Worker) × Nat
  | [], n => ([], n)
  | emp :: rest, n =>
    if is_available env s emp.id date dayIdx locId = true then
      let res := mkCandidates env s date dayIdx locId rest (n + 1)
      ((scoreOf env s emp locId (env.rand n), emp) :: res.1, res.2)
    else mkCandidates env s date dayIdx locId rest n

/-- First candidate of maximal score: the head of the stable descending sort
of main.py lines 321-322 (ties keep the earlier candidate). -/
def bestCand : List (ℚ × Worker) → Option (ℚ × Worker)
  | [] => none
  | c :: rest =>
    match bestCand rest with
    | none => some c
    | some b => if c.1 < b.1 then some b else some c

/-- Phase 2 while-loop (main.py lines 300-324): while the slot is below its
staffing min, assign the best available candidate or stop when none remain.
The fuel is the number of missing staff, which the loop decrements exactly
once per assignment. -/
def phase2Fill (env : Env) (ws : List Worker) (locId date dayIdx : Int) :
    Nat → SState → SState
  | 0, s => s
  | fuel + 1, s =>
    let cn := mkCandidates env s date dayIdx locId ws s.rIdx
    match bestCand cn.1 with
    | none => s
    | some c =>
      phase2Fill env ws locId date dayIdx fuel { assign s c.2.id locId date with rIdx := cn.2 }

/-- Phase 2 body for one location on one day (main.py lines 296-299): the
while-loop runs for at most `staffing_min - current` iterations. -/
def phase2Loc (env : Env) (ws : List Worker) (date dayIdx : Int) (s : SState)
    (loc : Location) : SState :=
  phase2Fill env ws loc.id date dayIdx
    ((env.locMinMax loc.id).1 - (s.locDayCounts loc.id date : Int)).toNat s

/-- Phase 2 location loop for one day, over that iteration's shuffled order. -/
def phase2Locs (env : Env) (ws : List Worker) (date dayIdx : Int) :
    List Location → SState → SState
  | [], s => s
  | loc :: rest, s => phase2Locs env ws date dayIdx rest (phase2Loc env ws date dayIdx s loc)

/-- Phase 2 day loop (main.py lines 291-294): for the p-th visited day index i,
the locations are traversed in the order `locOrder p`. -/
def phase2Days (env : Env) (ws : List Worker) : List (Nat × Nat) → SState → SState
  | [], s => s
  | pi :: rest, s =>
    phase2Days env ws rest
      (phase2Locs env ws (env.start + (pi.2 : Int)) (pi.2 : Int) (env.locOrder pi.1) s)

/-- Phase 2 (main.py lines 287-324). -/
def phase2 (env : Env) (ws : List Worker) (s : SState) : SState :=
  phase2Days env ws env.dayIdx.enum s

/-- Phase 3 guard on a location (main.py line 342): under staffing max and not
in the worker's forbidden set. -/
def phase3Guard (env : Env) (s : SState) (empId date : Int) (loc : Location) : Bool :=
  decide ((s.locDayCounts loc.id date : Int) < (env.locMinMax loc.id).2)
    && decide (loc.id ∉ env.badLocs empId)

/-- Phase 3 location search (main.py lines 339-345): the first location in the
original list passing the guard receives the assignment; `none` when no
location has space. -/
def phase3TryLocs (env : Env) (empId date : Int) (s : SState) : List Location → Option SState
  | [] => none
  | loc :: rest =>
    if phase3Guard env s empId date loc = true then some (assign s empId loc.id date)
    else phase3TryLocs env empId date s rest

/-- Phase 3 day loop for one needy worker (main.py lines 332-345), with the
remaining-need counter and the dummy location id -1 in the eligibility call. -/
def phase3Days (env : Env) (empId : Int) : List Nat → Int → SState → SState
  | [], _, s => s
  | i :: rest, needed, s =>
    if needed ≤ 0 then s
    else
      if is_available env s empId (env.start + (i : Int)) (i : Int) (-1) = true then
        match phase3TryLocs env empId (env.start + (i : Int)) s env.locations with
        | some s1 => phase3Days env empId rest (needed - 1) s1
        | none => phase3Days env empId rest needed s
      else phase3Days env empId rest needed s

/-- Phase 3 body for one needy worker (main.py lines 331-332). -/
def phase3Worker (env : Env) (s : SState) (emp : Worker) : SState :=
  phase3Days env emp.id env.dayIdx ((env.empTargets emp.id).1 - (s.daysAssigned emp.id : Int)) s

/-- Phase 3 worker loop. -/
def phase3Fold (env : Env) : List Worker → SState → SState
  | [], s => s
  | w :: rest, s => phase3Fold env rest (phase3Worker env s w)

/-- Phase 3 (main.py lines 326-345): workers still below their target-days
min, sorted by ascending priority. -/
def phase3 (env : Env) (ws : List Worker) (s : SState) : SState :=
  phase3Fold env
    (sortByPriority (ws.filter (fun e => decide ((s.daysAssigned e.id : Int) < (env.empTargets e.id).1))))
    s

/-- One full smart-mode run (main.py lines 205-345): sort the roster by
priority, then Phase 1, Phase 2, Phase 3 over shared state. -/
def smartRun (env : Env) : SState :=
  let sorted := sortByPriority env.employees
  phase3 env sorted (phase2 env sorted (phase1 env sorted initState))

/-- Copy-forward inner loop (main.py lines 200-203): re-date each prior-week
shift by its day offset from the previous week start, dropping offsets outside
the 6-day window. -/
def copyFold (start : Int) : List Shift → List Shift → List Shift
  | [], acc => acc
  | o :: rest, acc =>
    if 0 ≤ o.date - (start - 7) ∧ o.date - (start - 7) < 6 then
      copyFold start rest (acc ++ [⟨o.employee_id, o.location_id, start + (o.date - (start - 7))⟩])
    else copyFold start rest acc

/-- Copy mode (main.py lines 196-203): shifts dated in the previous week
(start-7 through start-2 inclusive) are replayed into the target week. -/
def copyMode (start : Int) (allShifts : List Shift) : List Shift :=
  copyFold start (allShifts.filter (fun sh => decide (start - 7 ≤ sh.date ∧ sh.date ≤ start - 2))) []

/-- Columns of the employee table as declared in database.py (class Employee):
id, name, active.  The table declares no priority column, although main.py
reads `emp.priority` when sorting and scoring. -/
structure EmployeeRow where
  id : Int
  name : String
  active : Bool
deriving DecidableEq, Repr

/-- Python attribute access `e.priority` on an Employee row loaded from the
database: database.py declares no such field, so the access raises
AttributeError, modelled as an Except error. -/
def rowPriority (_e : EmployeeRow) : Except String Int :=
  Except.error "AttributeError: Employee object has no attribute priority"

/-- Model of `employees.sort(key=lambda x: x.priority)` (main.py line 256):
Python's sort evaluates the key on every element and raises on the first
failure.  The sorted order would only matter if every key computation
succeeded, which rowPriority never allows on a nonempty list, so the ok
branch (reached only for the empty roster) returns the list unchanged. -/
def smartSortStep (rows : List EmployeeRow) : Except String (List EmployeeRow) := do
  let _keys ← rows.mapM rowPriority
  Except.ok rows

/-- LocationPreference row (database.py). -/
structure PrefRow where
  employee_id : Int
  location_id : Int
deriving DecidableEq, Repr

/-- EmployeeTargetDays row (database.py). -/
structure TargetRow where
  employee_id : Int
  min_days : Int
  max_days : Int
deriving DecidableEq, Repr

/-- EmployeeUnavailableDay row (database.py). -/
structure UnavailableRow where
  employee_id : Int
  day_of_week : Int
deriving DecidableEq, Repr

/-- LocationConstraint row, a forbidden location (database.py). -/
structure BadLocRow where
  employee_id : Int
  location_id : Int
deriving DecidableEq, Repr

/-- LocationTarget row (database.py). -/
structure LocTargetRow where
  location_id : Int
  min_employees : Int
  max_employees : Int
deriving DecidableEq, Repr

/-- Python `m[k].append(v)` on a dict of lists, as an association list: the
value list of an existing key grows at the end; a missing key raises
KeyError. -/
def dictAppend (k v : Int) : List (Int × List Int) → Except String (List (Int × List Int))
  | [] => Except.error "KeyError"
  | (k0, vs) :: rest =>
    if k0 = k then Except.ok ((k0, vs ++ [v]) :: rest)
    else do
      let rest1 ← dictAppend k v rest
      Except.ok ((k0, vs) :: rest1)

/-- Python `m[k] = v` on a dict: update an existing key in place or insert a
new one (never fails). -/
def dictSet (k : Int) (v : Int × Int) : List (Int × (Int × Int)) → List (Int × (Int × Int))
  | [] => [(k, v)]
  | (k0, v0) :: rest => if k0 = k then (k, v) :: rest else (k0, v0) :: dictSet k v rest

/-- The five lookup tables the smart mode builds (main.py lines 216-231). -/
structure Mappings where
  prefs : List (Int × List Int)
  targets : List (Int × (Int × Int))
  unavailable : List (Int × List Int)
  forbidden : List (Int × List Int)
  staffing : List (Int × (Int × Int))
deriving DecidableEq, Repr

/-- The mapping-build step of smart mode (main.py lines 216-231): every table
is seeded with a default entry per active employee (or per location), then the
stored rows are folded in.  Preference, unavailable-day and forbidden-location
rows use `dict[key].append`, which fails for a key outside the seeded roster;
target-days and location-target rows use plain assignment, which cannot
fail. -/
def buildMappings (employees : List EmployeeRow) (locations : List Location)
    (prefRows : List PrefRow) (targetRows : List TargetRow)
    (unavailRows : List UnavailableRow) (badLocRows : List BadLocRow)
    (locTargetRows : List LocTargetRow) : Except String Mappings := do
  let pm ← prefRows.foldlM (fun m p => dictAppend p.employee_id p.location_id m)
    (employees.map (fun e => (e.id, ([] : List Int))))
  let et := targetRows.foldl (fun m t => dictSet t.employee_id (t.min_days, t.max_days) m)
    (employees.map (fun e => (e.id, ((0 : Int), (5 : Int)))))
  let bd ← unavailRows.foldlM (fun m u => dictAppend u.employee_id u.day_of_week m)
    (employees.map (fun e => (e.id, ([] : List Int))))
  let bl ← badLocRows.foldlM (fun m b => dictAppend b.employee_id b.location_id m)
    (employees.map (fun e => (e.id, ([] : List Int))))
  let lm := locTargetRows.foldl
    (fun m lt => dictSet lt.location_id (lt.min_employees, lt.max_employees) m)
    (locations.map (fun l => (l.id, ((1 : Int), (1 : Int)))))
  Except.ok ⟨pm, et, bd, bl, lm⟩

/-- Smart-mode prologue of autofill_schedule: build the constraint mappings
(main.py lines 216-231), then sort the roster by priority (line 256); either
step can raise. -/
def smartPrologue (employees : List EmployeeRow) (locations : List Location)
    (prefRows : List PrefRow) (targetRows : List TargetRow)
    (unavailRows : List UnavailableRow) (badLocRows : List BadLocRow)
    (locTargetRows : List LocTargetRow) : Except String (Mappings × List EmployeeRow) := do
  let maps ← buildMappings employees locations prefRows targetRows unavailRows badLocRows
    locTargetRows
  let sorted ← smartSortStep employees
  Except.ok (maps, sorted)

/-- Entry point shape of autofill_schedule (main.py lines 188-205): parse the
start date (`none` models an unparseable string, raising before anything
else), clear the week, then dispatch on the mode; an unrecognized mode does
nothing further, and copy mode performs no constraint lookups.  Smart mode
runs the prologue whose two failure points the claims discuss. -/
def autofillEntry (weekStart : Option Int) (mode : String)
    (employees : List EmployeeRow) (locations : List Location)
    (prefRows : List PrefRow) (targetRows : List TargetRow)
    (unavailRows : List UnavailableRow) (badLocRows : List BadLocRow)
    (locTargetRows : List LocTargetRow) : Except String Unit :=
  match weekStart with
  | none => Except.error "ValueError: unparseable start date"
  | some _ =>
    if mode = "copy" then Except.ok ()
    else if mode = "smart" then do
      let _ ← smartPrologue employees locations prefRows targetRows unavailRows badLocRows
        locTargetRows
      Except.ok ()
    else Except.ok ()

/-- A single active employee row, as seeded by database.py. -/
def johnRow : EmployeeRow := ⟨1, "John", true⟩

/-- Concrete run: one worker, one location with the default staffing target
(min 1, max 1); Phase 2 staffs the location on day 0. -/
def envOne : Env :=
  { employees := [⟨1, "Amy", true, 1⟩]
    locations := [⟨1, "Sandy"⟩]
    prefMap := fun _ => []
    empTargets := fun _ => (0, 1)
    badDays := fun _ => []
    badLocs := fun _ => []
    locMinMax := fun _ => (1, 1)
    start := 0
    dayIdx := [0, 1, 2, 3, 4, 5]
    locOrder := fun _ => [⟨1, "Sandy"⟩]
    rand := fun _ => 0 }

/-- Concrete run: two workers who both prefer location 1, which admits two
staff (min 0, max 2); both workers may work at most one day. -/
def envTwoFans : Env :=
  { employees := [⟨1, "Amy", true, 1⟩, ⟨2, "Bill", true, 1⟩]
    locations := [⟨1, "Sandy"⟩]
    prefMap := fun _ => [1]
    empTargets := fun _ => (0, 1)
    badDays := fun _ => []
    badLocs := fun _ => []
    locMinMax := fun _ => (0, 2)
    start := 0
    dayIdx := [0, 1, 2, 3, 4, 5]
    locOrder := fun _ => [⟨1, "Sandy"⟩]
    rand := fun _ => 0 }

/-- Concrete run that reaches Phase 3: one worker with target days min 1,
forbidden at location 1, no preferences, two locations with staffing
min 0, max 1, so only the hours top-up assigns anything. -/
def envTopUp : Env :=
  { employees := [⟨1, "Amy", true, 1⟩]
    locations := [⟨1, "Sandy"⟩, ⟨2, "Lehi"⟩]
    prefMap := fun _ => []
    empTargets := fun _ => (1, 2)
    badDays := fun _ => []
    badLocs := fun _ => [1]
    locMinMax := fun _ => (0, 1)
    start := 0
    dayIdx := [0, 1, 2, 3, 4, 5]
    locOrder := fun _ => [⟨1, "Sandy"⟩, ⟨2, "Lehi"⟩]
    rand := fun _ => 0 }

/-- Concrete run: two workers with no preferences and one location whose
stored staffing range is inconsistent (min 2 above max 1). -/
def envMinAboveMax : Env :=
  { employees := [⟨1, "Amy", true, 1⟩, ⟨2, "Bill", true, 1⟩]
    locations := [⟨1, "Sandy"⟩]
    prefMap := fun _ => []
    empTargets := fun _ => (0, 1)
    badDays := fun _ => []
    badLocs := fun _ => []
    locMinMax := fun _ => (2, 1)
    start := 0
    dayIdx := [0, 1, 2, 3, 4, 5]
    locOrder := fun _ => [⟨1, "Sandy"⟩]
    rand := fun _ => 0 }

/-- Preference bonus used by the spec's description of Phase 3: score a
location by the flat preference bonus only. -/
def prefBonus (env : Env) (empId locId : Int) : Nat :=
  if locId ∈ env.prefMap empId then 50 else 0

/-- First location of maximal preference bonus in a list (ties keep the
earlier location, the resolution a stable descending sort would give). -/
def bestPrefLoc (env : Env) (empId : Int) : List Location → Option Location
  | [] => none
  | loc :: rest =>
    match bestPrefLoc env empId rest with
    | none => some loc
    | some b =>
      if prefBonus env empId loc.id < prefBonus env empId b.id then some b else some loc

/-- Modelled from the spec (section 4.3, Phase 3): among the locations not at
staffing max and not forbidden for the worker, assign the one with the highest
score, the score being the preference bonus only.  This is the spec-side twin
of phase3TryLocs, to be compared with the code's first-fit choice. -/
def phase3TryLocsSpec (env : Env) (empId date : Int) (s : SState) (locs : List Location) :
    Option SState :=
  match bestPrefLoc env empId (locs.filter (fun loc => phase3Guard env s empId date loc)) with
  | none => none
  | some loc => some (assign s empId loc.id date)

/-- Phase 3 day loop with the spec-side location choice. -/
def phase3DaysSpec (env : Env) (empId : Int) : List Nat → Int → SState → SState
  | [], _, s => s
  | i :: rest, needed, s =>
    if needed ≤ 0 then s
    else
      if is_available env s empId (env.start + (i : Int)) (i : Int) (-1) = true then
        match phase3TryLocsSpec env empId (env.start + (i : Int)) s env.locations with
        | some s1 => phase3DaysSpec env empId rest (needed - 1) s1
        | none => phase3DaysSpec env empId rest needed s
      else phase3DaysSpec env empId rest needed s

/-- Phase 3 body for one needy worker, spec-side. -/
def phase3WorkerSpec (env : Env) (s : SState) (emp : Worker) : SState :=
  phase3DaysSpec env emp.id env.dayIdx
    ((env.empTargets emp.id).1 - (s.daysAssigned emp.id : Int)) s

/-- Phase 3 worker loop, spec-side. -/
def phase3FoldSpec (env : Env) : List Worker → SState → SState
  | [], s => s
  | w :: rest, s => phase3FoldSpec env rest (phase3WorkerSpec env s w)

/-- Phase 3, spec-side. -/
def phase3Spec (env : Env) (ws : List Worker) (s : SState) : SState :=
  phase3FoldSpec env
    (sortByPriority (ws.filter (fun e => decide ((s.daysAssigned e.id : Int) < (env.empTargets e.id).1))))
    s

/-- A full smart run whose Phase 3 follows the spec's highest-preference-score
choice instead of the code's first-fit choice; Phases 1 and 2 are shared. -/
def smartRunSpec3 (env : Env) : SState :=
  let sorted := sortByPriority env.employees
  phase3Spec env sorted (phase2 env sorted (phase1 env sorted initState))

/-- Monotone evolution of run state: a later state has at least the earlier
day counters and occupancy counters, and keeps every working flag. -/
structure Mono (s t : SState) : Prop where
  days : ∀ e, s.daysAssigned e ≤ t.daysAssigned e
  counts : ∀ l d, s.locDayCounts l d ≤ t.locDayCounts l d
  working : ∀ e d, s.workingToday e d = true → t.workingToday e d = true

/-- Saturation fact over an arbitrary candidate-location list: as long as the
worker can still work day i (below target max, day not unavailable, not yet
working that date), no listed location has space left that is not forbidden.
Each assignment only shrinks the left-hand conditions and preserves the
right-hand one, so the fact survives arbitrary later assignments. -/
def NoOpenPref (env : Env) (s : SState) (empId : Int) (i : Nat) (plocs : List Int) : Prop :=
  (s.daysAssigned empId : Int) < (env.empTargets empId).2 →
  ((i : Int) ∉ env.badDays empId) →
  s.workingToday empId (env.start + (i : Int)) = false →
  ∀ P ∈ plocs,
    ¬((s.locDayCounts P (env.start + (i : Int)) : Int) < (env.locMinMax P).2
        ∧ P ∉ env.badLocs empId)

/-- Saturation fact established by Phase 1 for a worker and a day index, over
the worker's own preference list. -/
def AnchorSatDay (env : Env) (s : SState) (empId : Int) (i : Nat) : Prop :=
  NoOpenPref env s empId i (env.prefMap empId)

/-- Run-state invariant tying counters and flags to the accumulated shift
list: the working flag is set for every recorded shift, no two shifts share a
(worker, date) pair, every shift respects the worker's unavailable-day and
forbidden-location sets, and the occupancy counter equals the number of
recorded shifts per (location, date). -/
structure RunInv (env : Env) (s : SState) : Prop where
  flagged : ∀ sh ∈ s.shifts, s.workingToday sh.employee_id sh.date = true
  nodup : s.shifts.Pairwise (fun a b => ¬(a.employee_id = b.employee_id ∧ a.date = b.date))
  lawful : ∀ sh ∈ s.shifts,
    ((sh.date - env.start) ∉ env.badDays sh.employee_id)
      ∧ sh.location_id ∉ env.badLocs sh.employee_id
  counted : ∀ l d, s.locDayCounts l d
      = (s.shifts.filter (fun sh => decide (sh.location_id = l ∧ sh.date = d))).length

/-- Occupancy bound: every location's per-date counter is at most its
staffing max. -/
def UnderMax (env : Env) (s : SState) : Prop :=
  ∀ l d : Int, (s.locDayCounts l d : Int) ≤ (env.locMinMax l).2

-- Sanity checks of the embedding on tiny inputs (each proved by evaluation).

example : is_available envOne initState 1 0 0 7 = true := by decide

example : copyMode 10 [⟨1, 2, 3⟩, ⟨4, 5, 6⟩, ⟨7, 8, 9⟩] = [⟨1, 2, 10⟩, ⟨4, 5, 13⟩] := by decide

example : (smartRun envOne).shifts = [⟨1, 1, 0⟩] := by decide

example : (smartRun envTwoFans).shifts = [⟨1, 1, 0⟩, ⟨2, 1, 0⟩] := by decide

example : (smartRun envMinAboveMax).shifts = [⟨1, 1, 0⟩, ⟨2, 1, 0⟩] := by decide

example : (smartRun envTopUp).shifts = [⟨1, 2, 0⟩] := by decide

example : (smartRunSpec3 envTopUp).shifts = [⟨1, 2, 0⟩] := by decide

/-- Claim C10: the eligibility predicate returns true exactly when the worker
is below their target-days max, the day index is not in their unavailable set,
the location is not in their forbidden set, and they are not already working
that date; it is a pure reader of the roster state. -/
theorem c10_is_available_characterization (env : Env) (s : SState)
    (empId date dayIdx locId : Int) :
    is_available env s empId date dayIdx locId = true ↔
      ((s.daysAssigned empId : Int) < (env.empTargets empId).2
        ∧ dayIdx ∉ env.badDays empId
        ∧ locId ∉ env.badLocs empId
        ∧ s.workingToday empId date = false) := by
  unfold is_available
  split_ifs with h1 h2 h3 h4 <;> simp_all

/-- Helper: qadd agrees with rational addition. -/
theorem qadd_eq_add (a b : ℚ) : qadd a b = a + b := by
  have ha : ((a.den : ℚ)) ≠ 0 := Nat.cast_ne_zero.mpr (Rat.den_pos a).ne'
  have hb : ((b.den : ℚ)) ≠ 0 := Nat.cast_ne_zero.mpr (Rat.den_pos b).ne'
  rw [qadd, Rat.divInt_eq_div]
  conv_rhs => rw [← Rat.num_div_den a, ← Rat.num_div_den b]
  rw [div_add_div _ _ ha hb]
  push_cast
  ring_nf

/-- Helper: qmul agrees with rational multiplication. -/
theorem qmul_eq_mul (a b : ℚ) : qmul a b = a * b := by
  rw [qmul, Rat.divInt_eq_div]
  conv_rhs => rw [← Rat.num_div_den a, ← Rat.num_div_den b]
  rw [div_mul_div_comm]
  push_cast
  ring_nf

/-- Claim C5: in Phase-2 scoring the priority term dominates: for two workers
eligible for the same slot whose priority tiers differ, the numerically lower
tier scores strictly higher whatever the preference bonus, the need bonus and
the random perturbations in [0, 1). -/
theorem c5_priority_dominates (env : Env) (s : SState) (e1 e2 : Worker)
    (locId date dayIdx : Int) (r1 r2 : ℚ)
    (hel1 : is_available env s e1.id date dayIdx locId = true)
    (hel2 : is_available env s e2.id date dayIdx locId = true)
    (hp : e1.priority < e2.priority) (hr1 : 0 ≤ r1) (hr2 : r2 < 1) :
    scoreOf env s e2 locId r2 < scoreOf env s e1 locId r1 := by
  unfold scoreOf
  simp only [qadd_eq_add, qmul_eq_mul]
  have h1 : (e1.priority : ℚ) + 1 ≤ (e2.priority : ℚ) := by
    exact_mod_cast Int.add_one_le_iff.mpr hp
  split_ifs <;> push_cast <;> linarith

/-- Witness for C5: two eligible workers of priority tiers 1 and 2 at a
concrete slot, with random draws 9/10 (for the lower-scoring tier 2) and 0. -/
theorem c5_priority_dominates_witness :
    scoreOf envTwoFans initState ⟨2, "Bill", true, 2⟩ 1 (Rat.divInt 9 10)
      < scoreOf envTwoFans initState ⟨1, "Amy", true, 1⟩ 1 0 := by
  exact c5_priority_dominates envTwoFans initState ⟨1, "Amy", true, 1⟩ ⟨2, "Bill", true, 2⟩
    1 0 0 0 (Rat.divInt 9 10) (by decide) (by decide) (by decide) (by decide) (by decide)

/-- Helper for C9: once restricted to the previous week's window, the
re-dating loop is exactly a 7-day shift of every element. -/
theorem copyFold_window (start : Int) (l : List Shift)
    (h : ∀ o ∈ l, start - 7 ≤ o.date ∧ o.date ≤ start - 2) (acc : List Shift) :
    copyFold start l acc
      = acc ++ l.map (fun o => ⟨o.employee_id, o.location_id, o.date + 7⟩) := by
  induction l generalizing acc with
  | nil => simp [copyFold]
  | cons o rest ih =>
    have ho := h o (List.mem_cons_self o rest)
    have hcond : 0 ≤ o.date - (start - 7) ∧ o.date - (start - 7) < 6 := by omega
    have hdate : start + (o.date - (start - 7)) = o.date + 7 := by ring
    simp only [copyFold, if_pos hcond, hdate]
    rw [ih (fun x hx => h x (List.mem_cons_of_mem o hx))]
    simp

/-- Claim C9: copy mode replays exactly the shifts of the previous week
(dates start-7 through start-2 inclusive) shifted forward by 7 days, with the
same worker and location; the out-of-window guard drops nothing because the
selected window is exactly the 6 source days, and no eligibility predicate is
consulted anywhere in this mode. -/
theorem c9_copy_is_shifted_replay (start : Int) (allShifts : List Shift) :
    copyMode start allShifts
      = (allShifts.filter (fun sh => decide (start - 7 ≤ sh.date ∧ sh.date ≤ start - 2))).map
          (fun o => ⟨o.employee_id, o.location_id, o.date + 7⟩) := by
  unfold copyMode
  rw [copyFold_window]
  · simp
  · intro o ho
    have := (List.mem_filter.mp ho).2
    exact of_decide_eq_true this

/-- Claim C1 is a code bug: with a syntactically valid start date and the
recognized mode smart, the entry point fails on any roster containing at
least one active employee, because sorting by `emp.priority` reads an
attribute the Employee table of database.py does not declare.  Evaluated on a
one-employee roster with all constraint tables empty. -/
theorem c1_smart_mode_fails_on_one_employee_roster :
    autofillEntry (some 0) "smart" [johnRow] [⟨1, "Sandy"⟩] [] [] [] [] []
      = Except.error "AttributeError: Employee object has no attribute priority" := by
  rfl

/-- Claim C4 is a code bug: a stored LocationPreference row whose employee id
is not in the active roster makes the smart-mode mapping build fail with
KeyError (main.py line 218 appends into pref_map without the membership guard
its sibling get_roster_state uses), instead of defaulting safely; evaluated
with a roster containing only employee 1 and a stale preference row for
employee 99. -/
theorem c4_stale_preference_row_fails :
    buildMappings [johnRow] [⟨1, "Sandy"⟩] [⟨99, 1⟩] [] [] [] []
      = Except.error "KeyError" := by
  rfl

/-- Helper: unpack a successful eligibility check into its four conditions. -/
theorem avail_dest {env : Env} {s : SState} {empId date dayIdx locId : Int}
    (h : is_available env s empId date dayIdx locId = true) :
    (s.daysAssigned empId : Int) < (env.empTargets empId).2
      ∧ dayIdx ∉ env.badDays empId
      ∧ locId ∉ env.badLocs empId
      ∧ s.workingToday empId date = false := by
  unfold is_available at h
  split_ifs at h with h1 h2 h3 h4
  exact ⟨not_le.mp h1, h2, h3, by simpa using h4⟩

/-- Helper: Mono is reflexive. -/
theorem mono_refl (s : SState) : Mono s s :=
  ⟨fun _ => le_refl _, fun _ _ => le_refl _, fun _ _ h => h⟩

/-- Helper: Mono is transitive. -/
theorem mono_trans {s t u : SState} (h1 : Mono s t) (h2 : Mono t u) : Mono s u :=
  ⟨fun e => le_trans (h1.days e) (h2.days e),
    fun l d => le_trans (h1.counts l d) (h2.counts l d),
    fun e d h => h2.working e d (h1.working e d h)⟩

/-- Helper: a single assignment only grows the state. -/
theorem assign_mono (s : SState) (empId locId date : Int) :
    Mono s (assign s empId locId date) := by
  refine ⟨fun e => ?_, fun l d => ?_, fun e d h => ?_⟩
  · simp only [assign]
    split_ifs <;> omega
  · simp only [assign]
    split_ifs <;> omega
  · simp only [assign]
    split_ifs with hc
    · rfl
    · exact h

/-- Helper: changing the random-stream position does not affect Mono. -/
theorem mono_rIdx {s t : SState} (n : Nat) (h : Mono s t) : Mono s { t with rIdx := n } :=
  ⟨h.days, h.counts, h.working⟩

/-- Helper: the Phase 1 location search only grows the state. -/
theorem phase1TryLocs_mono (env : Env) (empId date dayIdx : Int) :
    ∀ (plocs : List Int) (s : SState), Mono s (phase1TryLocs env empId date dayIdx plocs s)
  | [], s => mono_refl s
  | ploc :: rest, s => by
    unfold phase1TryLocs
    split_ifs with h
    · exact assign_mono s empId ploc date
    · exact phase1TryLocs_mono env empId date dayIdx rest s

/-- Helper: the Phase 1 day loop only grows the state. -/
theorem phase1Days_mono (env : Env) (empId : Int) :
    ∀ (days : List Nat) (s : SState), Mono s (phase1Days env empId days s)
  | [], s => mono_refl s
  | i :: rest, s => by
    unfold phase1Days
    split_ifs with h
    · exact mono_refl s
    · exact mono_trans (phase1TryLocs_mono env empId _ _ _ s)
        (phase1Days_mono env empId rest _)

/-- Helper: the Phase 1 per-worker body only grows the state. -/
theorem phase1Worker_mono (env : Env) (s : SState) (emp : Worker) :
    Mono s (phase1Worker env s emp) := by
  unfold phase1Worker
  split_ifs with h
  · exact mono_refl s
  · exact phase1Days_mono env emp.id env.dayIdx s

/-- Helper: Phase 1 only grows the state. -/
theorem phase1_mono (env : Env) :
    ∀ (ws : List Worker) (s : SState), Mono s (phase1 env ws s)
  | [], s => mono_refl s
  | w :: rest, s =>
    mono_trans (phase1Worker_mono env s w) (phase1_mono env rest _)

/-- Helper: the Phase 2 while-loop only grows the state. -/
theorem phase2Fill_mono (env : Env) (ws : List Worker) (locId date dayIdx : Int) :
    ∀ (fuel : Nat) (s : SState), Mono s (phase2Fill env ws locId date dayIdx fuel s)
  | 0, s => mono_refl s
  | fuel + 1, s => by
    rcases hb : bestCand (mkCandidates env s date dayIdx locId ws s.rIdx).1 with _ | c
    · simp only [phase2Fill, hb]
      exact mono_refl s
    · simp only [phase2Fill, hb]
      exact mono_trans (mono_rIdx _ (assign_mono s c.2.id locId date))
        (phase2Fill_mono env ws locId date dayIdx fuel _)

/-- Helper: the Phase 2 per-location body only grows the state. -/
theorem phase2Loc_mono (env : Env) (ws : List Worker) (date dayIdx : Int) (s : SState)
    (loc : Location) : Mono s (phase2Loc env ws date dayIdx s loc) :=
  phase2Fill_mono env ws loc.id date dayIdx _ s

/-- Helper: the Phase 2 location loop only grows the state. -/
theorem phase2Locs_mono (env : Env) (ws : List Worker) (date dayIdx : Int) :
    ∀ (locs : List Location) (s : SState), Mono s (phase2Locs env ws date dayIdx locs s)
  | [], s => mono_refl s
  | loc :: rest, s =>
    mono_trans (phase2Loc_mono env ws date dayIdx s loc)
      (phase2Locs_mono env ws date dayIdx rest _)

/-- Helper: the Phase 2 day loop only grows the state. -/
theorem phase2Days_mono (env : Env) (ws : List Worker) :
    ∀ (l : List (Nat × Nat)) (s : SState), Mono s (phase2Days env ws l s)
  | [], s => mono_refl s
  | pi :: rest, s =>
    mono_trans (phase2Locs_mono env ws _ _ _ s) (phase2Days_mono env ws rest _)

/-- Helper: Phase 2 only grows the state. -/
theorem phase2_mono (env : Env) (ws : List Worker) (s : SState) : Mono s (phase2 env ws s) :=
  phase2Days_mono env ws env.dayIdx.enum s

/-- Helper: a successful Phase 3 location search only grows the state. -/
theorem phase3TryLocs_mono (env : Env) (empId date : Int) :
    ∀ (locs : List Location) (s s1 : SState),
      phase3TryLocs env empId date s locs = some s1 → Mono s s1
  | [], s, s1, h => by simp [phase3TryLocs] at h
  | loc :: rest, s, s1, h => by
    unfold phase3TryLocs at h
    split_ifs at h with hg
    · exact (Option.some.inj h) ▸ assign_mono s empId loc.id date
    · exact phase3TryLocs_mono env empId date rest s s1 h

/-- Helper: the Phase 3 day loop only grows the state. -/
theorem phase3Days_mono (env : Env) (empId : Int) :
    ∀ (days : List Nat) (needed : Int) (s : SState),
      Mono s (phase3Days env empId days needed s)
  | [], _, s => mono_refl s
  | i :: rest, needed, s => by
    unfold phase3Days
    split_ifs with h1 h2
    · exact mono_refl s
    · rcases ht : phase3TryLocs env empId (env.start + (i : Int)) s env.locations with _ | s1
      · simp only [ht]
        exact phase3Days_mono env empId rest needed s
      · simp only [ht]
        exact mono_trans (phase3TryLocs_mono env empId _ _ s s1 ht)
          (phase3Days_mono env empId rest (needed - 1) s1)
    · exact phase3Days_mono env empId rest needed s

/-- Helper: the Phase 3 per-worker body only grows the state. -/
theorem phase3Worker_mono (env : Env) (s : SState) (emp : Worker) :
    Mono s (phase3Worker env s emp) :=
  phase3Days_mono env emp.id env.dayIdx _ s

/-- Helper: the Phase 3 worker loop only grows the state. -/
theorem phase3Fold_mono (env : Env) :
    ∀ (ws : List Worker) (s : SState), Mono s (phase3Fold env ws s)
  | [], s => mono_refl s
  | w :: rest, s =>
    mono_trans (phase3Worker_mono env s w) (phase3Fold_mono env rest _)

/-- Helper: unpack a successful Phase 3 guard. -/
theorem phase3Guard_dest {env : Env} {s : SState} {empId date : Int} {loc : Location}
    (hg : phase3Guard env s empId date loc = true) :
    (s.locDayCounts loc.id date : Int) < (env.locMinMax loc.id).2
      ∧ loc.id ∉ env.badLocs empId := by
  unfold phase3Guard at hg
  rw [Bool.and_eq_true] at hg
  exact ⟨of_decide_eq_true hg.1, of_decide_eq_true hg.2⟩

/-- Helper: an assignment with a clear working flag, a lawful day and a
lawful location preserves the run invariant. -/
theorem assign_runInv {env : Env} {s : SState} {empId locId date : Int}
    (hs : RunInv env s)
    (hw : s.workingToday empId date = false)
    (hbd : (date - env.start) ∉ env.badDays empId)
    (hbl : locId ∉ env.badLocs empId) :
    RunInv env (assign s empId locId date) := by
  constructor
  · intro sh hsh
    simp only [assign, List.mem_append, List.mem_singleton] at hsh
    rcases hsh with hsh | rfl
    · have hold := hs.flagged sh hsh
      simp only [assign]
      split_ifs with hc
      · rfl
      · exact hold
    · simp [assign]
  · simp only [assign]
    rw [List.pairwise_append]
    refine ⟨hs.nodup, List.pairwise_singleton _ _, ?_⟩
    intro a ha b hb
    simp only [List.mem_singleton] at hb
    subst hb
    intro hcontra
    have hflag := hs.flagged a ha
    rw [hcontra.1, hcontra.2] at hflag
    rw [hw] at hflag
    exact absurd hflag (by simp)
  · intro sh hsh
    simp only [assign, List.mem_append, List.mem_singleton] at hsh
    rcases hsh with hsh | rfl
    · exact hs.lawful sh hsh
    · exact ⟨hbd, hbl⟩
  · intro l d
    have hcnt := hs.counted l d
    by_cases hc : l = locId ∧ d = date
    · obtain ⟨hl, hd⟩ := hc
      subst hl
      subst hd
      simp [assign, List.filter_append, hcnt]
    · simp [assign, List.filter_append, if_neg hc, hcnt]
      intro h1 h2
      exact hc ⟨h1.symm, h2.symm⟩

/-- Helper: changing the random-stream position preserves the run invariant. -/
theorem rIdx_runInv {env : Env} {s : SState} (n : Nat) (h : RunInv env s) :
    RunInv env { s with rIdx := n } :=
  ⟨h.flagged, h.nodup, h.lawful, h.counted⟩

/-- Helper: every Phase 2 candidate passed the eligibility predicate in the
state in which it was collected. -/
theorem mkCandidates_avail (env : Env) (s : SState) (date dayIdx locId : Int) :
    ∀ (ws : List Worker) (n : Nat) (c : ℚ × Worker),
      c ∈ (mkCandidates env s date dayIdx locId ws n).1 →
      is_available env s c.2.id date dayIdx locId = true
  | [], n, c, hc => by simp [mkCandidates] at hc
  | emp :: rest, n, c, hc => by
    simp only [mkCandidates] at hc
    split_ifs at hc with ha
    · simp only [List.mem_cons] at hc
      rcases hc with rfl | hc
      · exact ha
      · exact mkCandidates_avail env s date dayIdx locId rest (n + 1) c hc
    · exact mkCandidates_avail env s date dayIdx locId rest n c hc

/-- Helper: the selected best candidate is one of the candidates. -/
theorem bestCand_mem : ∀ (l : List (ℚ × Worker)) (c : ℚ × Worker),
    bestCand l = some c → c ∈ l
  | [], c, h => by simp [bestCand] at h
  | x :: rest, c, h => by
    rcases hb : bestCand rest with _ | b <;> simp only [bestCand, hb] at h
    · exact (Option.some.inj h) ▸ List.mem_cons_self x rest
    · split_ifs at h with hlt
      · exact List.mem_cons_of_mem x ((Option.some.inj h) ▸ bestCand_mem rest b hb)
      · exact (Option.some.inj h) ▸ List.mem_cons_self x rest

/-- Helper: the Phase 1 location search preserves the run invariant. -/
theorem phase1TryLocs_runInv (env : Env) (empId dayIdx : Int) :
    ∀ (plocs : List Int) (s : SState), RunInv env s →
      RunInv env (phase1TryLocs env empId (env.start + dayIdx) dayIdx plocs s)
  | [], s, hs => hs
  | ploc :: rest, s, hs => by
    unfold phase1TryLocs
    split_ifs with h
    · obtain ⟨hdm, hbd, hbl, hw⟩ := avail_dest h.2
      refine assign_runInv hs hw ?_ hbl
      have he : env.start + dayIdx - env.start = dayIdx := by ring
      rw [he]
      exact hbd
    · exact phase1TryLocs_runInv env empId dayIdx rest s hs

/-- Helper: the Phase 1 day loop preserves the run invariant. -/
theorem phase1Days_runInv (env : Env) (empId : Int) :
    ∀ (days : List Nat) (s : SState), RunInv env s →
      RunInv env (phase1Days env empId days s)
  | [], s, hs => hs
  | i :: rest, s, hs => by
    unfold phase1Days
    split_ifs with h
    · exact hs
    · exact phase1Days_runInv env empId rest _
        (phase1TryLocs_runInv env empId (i : Int) (env.prefMap empId) s hs)

/-- Helper: the Phase 1 per-worker body preserves the run invariant. -/
theorem phase1Worker_runInv (env : Env) (s : SState) (emp : Worker)
    (hs : RunInv env s) : RunInv env (phase1Worker env s emp) := by
  unfold phase1Worker
  split_ifs with h
  · exact hs
  · exact phase1Days_runInv env emp.id env.dayIdx s hs

/-- Helper: Phase 1 preserves the run invariant. -/
theorem phase1_runInv (env : Env) :
    ∀ (ws : List Worker) (s : SState), RunInv env s → RunInv env (phase1 env ws s)
  | [], _, hs => hs
  | w :: rest, s, hs =>
    phase1_runInv env rest _ (phase1Worker_runInv env s w hs)

/-- Helper: the Phase 2 while-loop preserves the run invariant. -/
theorem phase2Fill_runInv (env : Env) (ws : List Worker) (locId dayIdx : Int) :
    ∀ (fuel : Nat) (s : SState), RunInv env s →
      RunInv env (phase2Fill env ws locId (env.start + dayIdx) dayIdx fuel s)
  | 0, _, hs => hs
  | fuel + 1, s, hs => by
    rcases hb : bestCand (mkCandidates env s (env.start + dayIdx) dayIdx locId ws s.rIdx).1
      with _ | c
    · simp only [phase2Fill, hb]
      exact hs
    · simp only [phase2Fill, hb]
      have hav := mkCandidates_avail env s (env.start + dayIdx) dayIdx locId ws s.rIdx c
        (bestCand_mem _ c hb)
      obtain ⟨hdm, hbd, hbl, hw⟩ := avail_dest hav
      have he : env.start + dayIdx - env.start = dayIdx := by ring
      exact phase2Fill_runInv env ws locId dayIdx fuel _
        (rIdx_runInv _ (assign_runInv hs hw (by rw [he]; exact hbd) hbl))

/-- Helper: the Phase 2 per-location body preserves the run invariant. -/
theorem phase2Loc_runInv (env : Env) (ws : List Worker) (dayIdx : Int) (s : SState)
    (loc : Location) (hs : RunInv env s) :
    RunInv env (phase2Loc env ws (env.start + dayIdx) dayIdx s loc) := by
  unfold phase2Loc
  exact phase2Fill_runInv env ws loc.id dayIdx _ s hs

/-- Helper: the Phase 2 location loop preserves the run invariant. -/
theorem phase2Locs_runInv (env : Env) (ws : List Worker) (dayIdx : Int) :
    ∀ (locs : List Location) (s : SState), RunInv env s →
      RunInv env (phase2Locs env ws (env.start + dayIdx) dayIdx locs s)
  | [], _, hs => hs
  | loc :: rest, s, hs =>
    phase2Locs_runInv env ws dayIdx rest _ (phase2Loc_runInv env ws dayIdx s loc hs)

/-- Helper: the Phase 2 day loop preserves the run invariant. -/
theorem phase2Days_runInv (env : Env) (ws : List Worker) :
    ∀ (l : List (Nat × Nat)) (s : SState), RunInv env s →
      RunInv env (phase2Days env ws l s)
  | [], _, hs => hs
  | pi :: rest, s, hs =>
    phase2Days_runInv env ws rest _ (phase2Locs_runInv env ws (pi.2 : Int) _ s hs)

/-- Helper: Phase 2 preserves the run invariant. -/
theorem phase2_runInv (env : Env) (ws : List Worker) (s : SState) (hs : RunInv env s) :
    RunInv env (phase2 env ws s) :=
  phase2Days_runInv env ws env.dayIdx.enum s hs

/-- Helper: a successful Phase 3 location search preserves the run invariant,
given the working flag and the unavailable-day check the caller performed. -/
theorem phase3TryLocs_runInv (env : Env) (empId dayIdx : Int) :
    ∀ (locs : List Location) (s s1 : SState), RunInv env s →
      s.workingToday empId (env.start + dayIdx) = false →
      dayIdx ∉ env.badDays empId →
      phase3TryLocs env empId (env.start + dayIdx) s locs = some s1 →
      RunInv env s1
  | [], s, s1, _, _, _, h => by simp [phase3TryLocs] at h
  | loc :: rest, s, s1, hs, hw, hbd, h => by
    unfold phase3TryLocs at h
    split_ifs at h with hg
    · have hbl := (phase3Guard_dest hg).2
      have he : env.start + dayIdx - env.start = dayIdx := by ring
      exact (Option.some.inj h) ▸ assign_runInv hs hw (by rw [he]; exact hbd) hbl
    · exact phase3TryLocs_runInv env empId dayIdx rest s s1 hs hw hbd h

/-- Helper: the Phase 3 day loop preserves the run invariant. -/
theorem phase3Days_runInv (env : Env) (empId : Int) :
    ∀ (days : List Nat) (needed : Int) (s : SState), RunInv env s →
      RunInv env (phase3Days env empId days needed s)
  | [], _, _, hs => hs
  | i :: rest, needed, s, hs => by
    unfold phase3Days
    split_ifs with h1 h2
    · exact hs
    · rcases ht : phase3TryLocs env empId (env.start + (i : Int)) s env.locations with _ | s1
      · simp only [ht]
        exact phase3Days_runInv env empId rest needed s hs
      · simp only [ht]
        obtain ⟨hdm, hbd, hbl, hw⟩ := avail_dest h2
        exact phase3Days_runInv env empId rest (needed - 1) s1
          (phase3TryLocs_runInv env empId (i : Int) env.locations s s1 hs hw hbd ht)
    · exact phase3Days_runInv env empId rest needed s hs

/-- Helper: the Phase 3 per-worker body preserves the run invariant. -/
theorem phase3Worker_runInv (env : Env) (s : SState) (emp : Worker)
    (hs : RunInv env s) : RunInv env (phase3Worker env s emp) :=
  phase3Days_runInv env emp.id env.dayIdx _ s hs

/-- Helper: the Phase 3 worker loop preserves the run invariant. -/
theorem phase3Fold_runInv (env : Env) :
    ∀ (ws : List Worker) (s : SState), RunInv env s → RunInv env (phase3Fold env ws s)
  | [], _, hs => hs
  | w :: rest, s, hs =>
    phase3Fold_runInv env rest _ (phase3Worker_runInv env s w hs)

/-- Helper: the invariant holds for the fresh state. -/
theorem init_runInv (env : Env) : RunInv env initState := by
  refine ⟨?_, ?_, ?_, ?_⟩
  · intro sh hsh
    simp [initState] at hsh
  · simp [initState]
  · intro sh hsh
    simp [initState] at hsh
  · intro l d
    simp [initState]

/-- Helper: the invariant holds at the end of every smart run. -/
theorem smartRun_runInv (env : Env) : RunInv env (smartRun env) := by
  unfold smartRun phase3
  exact phase3Fold_runInv env _ _
    (phase2_runInv env _ _ (phase1_runInv env _ _ (init_runInv env)))

/-- Claim C6: across all three phases of a smart run, no worker appears twice
on the same date in the produced assignment list. -/
theorem c6_no_double_booking (env : Env) :
    (smartRun env).shifts.Pairwise
      (fun a b => ¬(a.employee_id = b.employee_id ∧ a.date = b.date)) :=
  (smartRun_runInv env).nodup

/-- Claim C7: no assignment of a smart run places a worker on a date whose
day index (offset from the week start) is in the worker's unavailable set,
nor at a location in the worker's forbidden set — including Phase 3, whose
eligibility call uses the dummy location id -1 and checks the forbidden set
separately. -/
theorem c7_no_forbidden_assignments (env : Env) :
    ∀ sh ∈ (smartRun env).shifts,
      ((sh.date - env.start) ∉ env.badDays sh.employee_id)
        ∧ sh.location_id ∉ env.badLocs sh.employee_id :=
  (smartRun_runInv env).lawful

/-- Witness for C7 on a concrete run producing an assignment. -/
theorem c7_no_forbidden_assignments_witness :
    (⟨1, 1, 0⟩ : Shift) ∈ (smartRun envOne).shifts
      ∧ ((((⟨1, 1, 0⟩ : Shift).date - envOne.start) ∉ envOne.badDays 1)
          ∧ (⟨1, 1, 0⟩ : Shift).location_id ∉ envOne.badLocs 1) := by
  have hm : (⟨1, 1, 0⟩ : Shift) ∈ (smartRun envOne).shifts := by decide
  exact ⟨hm, c7_no_forbidden_assignments envOne ⟨1, 1, 0⟩ hm⟩

/-- Helper: an assignment at a slot strictly below its staffing max keeps
every location's occupancy at or below its max. -/
theorem assign_underMax {env : Env} {s : SState} {empId locId date : Int}
    (hs : UnderMax env s)
    (hlt : (s.locDayCounts locId date : Int) < (env.locMinMax locId).2) :
    UnderMax env (assign s empId locId date) := by
  intro l d
  simp only [assign]
  split_ifs with hc
  · obtain ⟨rfl, rfl⟩ := hc
    push_cast
    omega
  · exact hs l d

/-- Helper: changing the random-stream position preserves the occupancy
bound. -/
theorem underMax_rIdx {env : Env} {s : SState} (n : Nat) (h : UnderMax env s) :
    UnderMax env { s with rIdx := n } := h

/-- Helper: the Phase 1 location search preserves the occupancy bound. -/
theorem phase1TryLocs_underMax (env : Env) (empId date dayIdx : Int) :
    ∀ (plocs : List Int) (s : SState), UnderMax env s →
      UnderMax env (phase1TryLocs env empId date dayIdx plocs s)
  | [], _, hs => hs
  | ploc :: rest, s, hs => by
    unfold phase1TryLocs
    split_ifs with h
    · exact assign_underMax hs h.1
    · exact phase1TryLocs_underMax env empId date dayIdx rest s hs

/-- Helper: the Phase 1 day loop preserves the occupancy bound. -/
theorem phase1Days_underMax (env : Env) (empId : Int) :
    ∀ (days : List Nat) (s : SState), UnderMax env s →
      UnderMax env (phase1Days env empId days s)
  | [], _, hs => hs
  | i :: rest, s, hs => by
    unfold phase1Days
    split_ifs with h
    · exact hs
    · exact phase1Days_underMax env empId rest _
        (phase1TryLocs_underMax env empId _ _ _ s hs)

/-- Helper: the Phase 1 worker body preserves the occupancy bound. -/
theorem phase1Worker_underMax (env : Env) (s : SState) (emp : Worker)
    (hs : UnderMax env s) : UnderMax env (phase1Worker env s emp) := by
  unfold phase1Worker
  split_ifs with h
  · exact hs
  · exact phase1Days_underMax env emp.id env.dayIdx s hs

/-- Helper: Phase 1 preserves the occupancy bound. -/
theorem phase1_underMax (env : Env) :
    ∀ (ws : List Worker) (s : SState), UnderMax env s → UnderMax env (phase1 env ws s)
  | [], _, hs => hs
  | w :: rest, s, hs =>
    phase1_underMax env rest _ (phase1Worker_underMax env s w hs)

/-- Helper: the Phase 2 while-loop preserves the occupancy bound whenever the
remaining fuel fits under the target slot's staffing max. -/
theorem phase2Fill_underMax (env : Env) (ws : List Worker) (locId date dayIdx : Int) :
    ∀ (fuel : Nat) (s : SState), UnderMax env s →
      ((s.locDayCounts locId date : Int) + (fuel : Int) ≤ (env.locMinMax locId).2
        ∨ fuel = 0) →
      UnderMax env (phase2Fill env ws locId date dayIdx fuel s)
  | 0, _, hs, _ => hs
  | fuel + 1, s, hs, hf => by
    rcases hb : bestCand (mkCandidates env s date dayIdx locId ws s.rIdx).1 with _ | c
    · simp only [phase2Fill, hb]
      exact hs
    · simp only [phase2Fill, hb]
      have hslack : (s.locDayCounts locId date : Int) + ((fuel : Int) + 1)
          ≤ (env.locMinMax locId).2 := by
        rcases hf with hf | hf
        · push_cast at hf
          omega
        · exact absurd hf (Nat.succ_ne_zero fuel)
      have hlt : (s.locDayCounts locId date : Int) < (env.locMinMax locId).2 := by
        omega
      refine phase2Fill_underMax env ws locId date dayIdx fuel _
        (underMax_rIdx _ (assign_underMax hs hlt)) (Or.inl ?_)
      simp only [assign, if_pos (And.intro rfl rfl)]
      push_cast
      omega

/-- Helper: the Phase 2 per-location body preserves the occupancy bound,
given a consistent staffing range at that location. -/
theorem phase2Loc_underMax (env : Env) (ws : List Worker) (date dayIdx : Int) (s : SState)
    (loc : Location) (hs : UnderMax env s)
    (hl : (env.locMinMax loc.id).1 ≤ (env.locMinMax loc.id).2) :
    UnderMax env (phase2Loc env ws date dayIdx s loc) := by
  unfold phase2Loc
  refine phase2Fill_underMax env ws loc.id date dayIdx _ s hs ?_
  by_cases hc : (env.locMinMax loc.id).1 ≤ (s.locDayCounts loc.id date : Int)
  · right
    rw [Int.toNat_eq_zero]
    omega
  · left
    rw [Int.toNat_of_nonneg (by omega)]
    omega

/-- Helper: the Phase 2 location loop preserves the occupancy bound. -/
theorem phase2Locs_underMax (env : Env) (ws : List Worker) (date dayIdx : Int)
    (hwf : ∀ l : Int, (env.locMinMax l).1 ≤ (env.locMinMax l).2) :
    ∀ (locs : List Location) (s : SState), UnderMax env s →
      UnderMax env (phase2Locs env ws date dayIdx locs s)
  | [], _, hs => hs
  | loc :: rest, s, hs =>
    phase2Locs_underMax env ws date dayIdx hwf rest _
      (phase2Loc_underMax env ws date dayIdx s loc hs (hwf loc.id))

/-- Helper: the Phase 2 day loop preserves the occupancy bound. -/
theorem phase2Days_underMax (env : Env) (ws : List Worker)
    (hwf : ∀ l : Int, (env.locMinMax l).1 ≤ (env.locMinMax l).2) :
    ∀ (l : List (Nat × Nat)) (s : SState), UnderMax env s →
      UnderMax env (phase2Days env ws l s)
  | [], _, hs => hs
  | pi :: rest, s, hs =>
    phase2Days_underMax env ws hwf rest _
      (phase2Locs_underMax env ws _ _ hwf _ s hs)

/-- Helper: Phase 2 preserves the occupancy bound. -/
theorem phase2_underMax (env : Env) (ws : List Worker) (s : SState)
    (hwf : ∀ l : Int, (env.locMinMax l).1 ≤ (env.locMinMax l).2)
    (hs : UnderMax env s) : UnderMax env (phase2 env ws s) :=
  phase2Days_underMax env ws hwf env.dayIdx.enum s hs

/-- Helper: a successful Phase 3 location search preserves the occupancy
bound, its guard having checked the staffing max. -/
theorem phase3TryLocs_underMax (env : Env) (empId date : Int) :
    ∀ (locs : List Location) (s s1 : SState), UnderMax env s →
      phase3TryLocs env empId date s locs = some s1 → UnderMax env s1
  | [], s, s1, _, h => by simp [phase3TryLocs] at h
  | loc :: rest, s, s1, hs, h => by
    unfold phase3TryLocs at h
    split_ifs at h with hg
    · exact (Option.some.inj h) ▸ assign_underMax hs (phase3Guard_dest hg).1
    · exact phase3TryLocs_underMax env empId date rest s s1 hs h

/-- Helper: the Phase 3 day loop preserves the occupancy bound. -/
theorem phase3Days_underMax (env : Env) (empId : Int) :
    ∀ (days : List Nat) (needed : Int) (s : SState), UnderMax env s →
      UnderMax env (phase3Days env empId days needed s)
  | [], _, _, hs => hs
  | i :: rest, needed, s, hs => by
    unfold phase3Days
    split_ifs with h1 h2
    · exact hs
    · rcases ht : phase3TryLocs env empId (env.start + (i : Int)) s env.locations with _ | s1
      · simp only [ht]
        exact phase3Days_underMax env empId rest needed s hs
      · simp only [ht]
        exact phase3Days_underMax env empId rest (needed - 1) s1
          (phase3TryLocs_underMax env empId _ env.locations s s1 hs ht)
    · exact phase3Days_underMax env empId rest needed s hs

/-- Helper: the Phase 3 worker body preserves the occupancy bound. -/
theorem phase3Worker_underMax (env : Env) (s : SState) (emp : Worker)
    (hs : UnderMax env s) : UnderMax env (phase3Worker env s emp) :=
  phase3Days_underMax env emp.id env.dayIdx _ s hs

/-- Helper: the Phase 3 worker loop preserves the occupancy bound. -/
theorem phase3Fold_underMax (env : Env) :
    ∀ (ws : List Worker) (s : SState), UnderMax env s → UnderMax env (phase3Fold env ws s)
  | [], _, hs => hs
  | w :: rest, s, hs =>
    phase3Fold_underMax env rest _ (phase3Worker_underMax env s w hs)

/-- Helper: the occupancy bound holds initially when every staffing max is
nonnegative. -/
theorem init_underMax (env : Env) (h0 : ∀ l : Int, 0 ≤ (env.locMinMax l).2) :
    UnderMax env initState := by
  intro l d
  simpa [initState] using h0 l

/-- Helper: the occupancy bound holds at the end of every smart run over
consistent staffing data. -/
theorem smartRun_underMax (env : Env)
    (hwf : ∀ l : Int, (env.locMinMax l).1 ≤ (env.locMinMax l).2)
    (h0 : ∀ l : Int, 0 ≤ (env.locMinMax l).2) :
    UnderMax env (smartRun env) := by
  unfold smartRun phase3
  exact phase3Fold_underMax env _ _
    (phase2_underMax env _ _ hwf (phase1_underMax env _ _ (init_underMax env h0)))

/-- Counterexample to claim C8 as stated: with a stored staffing range of
min 2, max 1 for location 1 (which set_location_target accepts unchecked),
Phase 2 drives the day-0 occupancy of that location to 2, strictly above its
staffing max of 1. -/
theorem c8_counterexample :
    (((smartRun envMinAboveMax).shifts.filter
        (fun sh => decide (sh.location_id = 1 ∧ sh.date = 0))).length : Int) = 2
      ∧ (envMinAboveMax.locMinMax 1).2 = 1 := by
  constructor
  · decide
  · rfl

/-- Claim C8 amended: provided every location's stored staffing range is
consistent — staffing min at most staffing max, staffing max nonnegative —
a location's per-date occupancy (the number of produced assignments there)
never exceeds its staffing max in a smart run, including while Phase 2 drives
occupancy toward the staffing min. -/
theorem c8_amended_occupancy_le_max (env : Env)
    (h : ∀ l : Int, (env.locMinMax l).1 ≤ (env.locMinMax l).2
      ∧ 0 ≤ (env.locMinMax l).2) :
    ∀ l d : Int,
      (((smartRun env).shifts.filter
          (fun sh => decide (sh.location_id = l ∧ sh.date = d))).length : Int)
        ≤ (env.locMinMax l).2 := by
  intro l d
  have hc := (smartRun_runInv env).counted l d
  have hu := smartRun_underMax env (fun l => (h l).1) (fun l => (h l).2) l d
  rw [← hc]
  exact hu

/-- Witness for the amended C8 at a concrete consistent environment. -/
theorem c8_amended_occupancy_le_max_witness :
    (((smartRun envOne).shifts.filter
        (fun sh => decide (sh.location_id = 1 ∧ sh.date = 0))).length : Int)
      ≤ (envOne.locMinMax 1).2 := by
  exact c8_amended_occupancy_le_max envOne (fun l => by simp [envOne]) 1 0

/-- Helper: the Phase 1 location search only adds shifts for the processed
worker, at locations from the searched preference list. -/
theorem phase1TryLocs_shifts (env : Env) (empId date dayIdx : Int) :
    ∀ (plocs : List Int) (s : SState),
      ∀ sh ∈ (phase1TryLocs env empId date dayIdx plocs s).shifts,
        sh ∈ s.shifts ∨ (sh.employee_id = empId ∧ sh.location_id ∈ plocs)
  | [], _, _, hsh => Or.inl hsh
  | ploc :: rest, s, sh, hsh => by
    unfold phase1TryLocs at hsh
    split_ifs at hsh with h
    · simp only [assign, List.mem_append, List.mem_singleton] at hsh
      rcases hsh with hsh | rfl
      · exact Or.inl hsh
      · exact Or.inr ⟨rfl, List.mem_cons_self ploc rest⟩
    · rcases phase1TryLocs_shifts env empId date dayIdx rest s sh hsh with h1 | ⟨h1, h2⟩
      · exact Or.inl h1
      · exact Or.inr ⟨h1, List.mem_cons_of_mem ploc h2⟩

/-- Helper: the Phase 1 day loop only adds preferred-location shifts for the
processed worker. -/
theorem phase1Days_shifts (env : Env) (empId : Int) :
    ∀ (days : List Nat) (s : SState),
      ∀ sh ∈ (phase1Days env empId days s).shifts,
        sh ∈ s.shifts ∨ (sh.employee_id = empId ∧ sh.location_id ∈ env.prefMap empId)
  | [], _, _, hsh => Or.inl hsh
  | i :: rest, s, sh, hsh => by
    unfold phase1Days at hsh
    split_ifs at hsh with h
    · exact Or.inl hsh
    · rcases phase1Days_shifts env empId rest _ sh hsh with h1 | h1
      · exact phase1TryLocs_shifts env empId _ _ _ s sh h1
      · exact Or.inr h1

/-- Helper: the Phase 1 worker body only adds preferred-location shifts. -/
theorem phase1Worker_shifts (env : Env) (s : SState) (emp : Worker) :
    ∀ sh ∈ (phase1Worker env s emp).shifts,
      sh ∈ s.shifts ∨ (sh.employee_id = emp.id ∧ sh.location_id ∈ env.prefMap emp.id) := by
  intro sh hsh
  unfold phase1Worker at hsh
  split_ifs at hsh with h
  · exact Or.inl hsh
  · exact phase1Days_shifts env emp.id env.dayIdx s sh hsh

/-- Helper: Phase 1 only adds shifts whose location the assigned worker
listed as preferred. -/
theorem phase1_shifts (env : Env) :
    ∀ (ws : List Worker) (s : SState),
      ∀ sh ∈ (phase1 env ws s).shifts,
        sh ∈ s.shifts ∨ sh.location_id ∈ env.prefMap sh.employee_id
  | [], _, _, hsh => Or.inl hsh
  | w :: rest, s, sh, hsh => by
    rcases phase1_shifts env rest (phase1Worker env s w) sh hsh with h1 | h1
    · rcases phase1Worker_shifts env s w sh h1 with h2 | ⟨h2, h3⟩
      · exact Or.inl h2
      · rw [h2]
        exact Or.inr h3
    · exact Or.inr h1

/-- Counterexample to claim C2 as stated: in a run where two workers prefer
location 1, whose staffing max is 2, Phase 1 anchors both of them at
(day 0, location 1) — more than one anchor assignment for that
(day, location) pair, because the phase iterates workers rather than
selecting one top candidate per slot. -/
theorem c2_counterexample :
    ((phase1 envTwoFans (sortByPriority envTwoFans.employees) initState).shifts.filter
        (fun sh => decide (sh.date = 0 ∧ sh.location_id = 1))).length = 2 := by
  decide

/-- Claim C2 amended: Phase 1 iterates workers in ascending priority order
rather than (day, location) slots, assigning each worker, day by day until
their target max is reached, the first preferred location that is under its
staffing max and passes the eligibility predicate; a (day, location) pair may
therefore receive several anchor assignments, but every Phase-1 assignment is
to a location from the assigned worker's own preference list. -/
theorem c2_amended_phase1_only_preferred (env : Env) :
    ∀ sh ∈ (phase1 env (sortByPriority env.employees) initState).shifts,
      sh.location_id ∈ env.prefMap sh.employee_id := by
  intro sh hsh
  rcases phase1_shifts env (sortByPriority env.employees) initState sh hsh with h | h
  · simp [initState] at h
  · exact h

/-- Helper: is_available returning false means one of the four conditions
fired. -/
theorem avail_false_dest {env : Env} {s : SState} {empId date dayIdx locId : Int}
    (h : is_available env s empId date dayIdx locId = false) :
    (env.empTargets empId).2 ≤ (s.daysAssigned empId : Int)
      ∨ dayIdx ∈ env.badDays empId
      ∨ locId ∈ env.badLocs empId
      ∨ s.workingToday empId date = true := by
  unfold is_available at h
  split_ifs at h with h1 h2 h3 h4
  all_goals first
    | exact Or.inl h1
    | exact Or.inr (Or.inl h2)
    | exact Or.inr (Or.inr (Or.inl h3))
    | exact Or.inr (Or.inr (Or.inr h4))

/-- Helper: the saturation fact survives any monotone state growth. -/
theorem noOpenPref_mono {env : Env} {s t : SState} {empId : Int} {i : Nat}
    {plocs : List Int} (hm : Mono s t) (ha : NoOpenPref env s empId i plocs) :
    NoOpenPref env t empId i plocs := by
  intro hdm hbd hw P hP hcon
  have hds : (s.daysAssigned empId : Int) < (env.empTargets empId).2 := by
    have := hm.days empId
    omega
  have hws : s.workingToday empId (env.start + (i : Int)) = false := by
    cases hx : s.workingToday empId (env.start + (i : Int))
    · rfl
    · rw [hm.working _ _ hx] at hw
      exact absurd hw (by simp)
  refine ha hds hbd hws P hP ⟨?_, hcon.2⟩
  have := hm.counts P (env.start + (i : Int))
  omega

/-- Helper: the saturation fact for a worker's preference list survives
monotone growth. -/
theorem anchorSatDay_mono {env : Env} {s t : SState} {empId : Int} {i : Nat}
    (hm : Mono s t) (ha : AnchorSatDay env s empId i) : AnchorSatDay env t empId i :=
  noOpenPref_mono hm ha

/-- Helper: after the Phase 1 location search over a list of candidate
locations, the saturation fact holds for exactly that list. -/
theorem phase1TryLocs_anchor (env : Env) (empId : Int) (i : Nat) :
    ∀ (plocs : List Int) (s : SState),
      NoOpenPref env (phase1TryLocs env empId (env.start + (i : Int)) (i : Int) plocs s)
        empId i plocs
  | [], s => by
    intro hdm hbd hw P hP
    exact absurd hP (List.not_mem_nil P)
  | ploc :: rest, s => by
    unfold phase1TryLocs
    split_ifs with hg
    · intro hdm hbd hw P hP hcon
      simp [assign] at hw
    · intro hdm hbd hw P hP hcon
      have hmono := phase1TryLocs_mono env empId (env.start + (i : Int)) (i : Int) rest s
      rcases List.mem_cons.mp hP with rfl | hP'
      · rcases not_and_or.mp hg with hnc | hnb
        · have hcc := hmono.counts P (env.start + (i : Int))
          have hc1 := hcon.1
          push_neg at hnc
          omega
        · have hfalse : is_available env s empId (env.start + (i : Int)) (i : Int) P
              = false := by
            cases hx : is_available env s empId (env.start + (i : Int)) (i : Int) P
            · rfl
            · exact absurd hx hnb
          rcases avail_false_dest hfalse with hcase | hcase | hcase | hcase
          · have hdd := hmono.days empId
            omega
          · exact hbd hcase
          · exact hcon.2 hcase
          · rw [hmono.working _ _ hcase] at hw
            exact absurd hw (by simp)
      · exact phase1TryLocs_anchor env empId i rest s hdm hbd hw P hP' hcon

/-- Helper: after the Phase 1 day loop for a worker, the saturation fact
holds for every visited day. -/
theorem phase1Days_anchor (env : Env) (empId : Int) :
    ∀ (days : List Nat) (s : SState), ∀ i ∈ days,
      AnchorSatDay env (phase1Days env empId days s) empId i
  | [], _, i, hi => absurd hi (List.not_mem_nil i)
  | j :: rest, s, i, hi => by
    unfold phase1Days
    split_ifs with h
    · intro hdm hbd hw P hP hcon
      omega
    · rcases List.mem_cons.mp hi with rfl | hi'
      · exact anchorSatDay_mono (phase1Days_mono env empId rest _)
          (phase1TryLocs_anchor env empId i (env.prefMap empId) s)
      · exact phase1Days_anchor env empId rest _ i hi'

/-- Helper: after a worker's Phase 1 turn, the saturation fact holds for that
worker on every day the run visits. -/
theorem phase1Worker_anchor (env : Env) (s : SState) (emp : Worker) :
    ∀ i ∈ env.dayIdx, AnchorSatDay env (phase1Worker env s emp) emp.id i := by
  intro i hi
  unfold phase1Worker
  split_ifs with h
  · intro hdm hbd hw P hP
    rw [h] at hP
    exact absurd hP (List.not_mem_nil P)
  · exact phase1Days_anchor env emp.id env.dayIdx s i hi

/-- Helper: after Phase 1, the saturation fact holds for every processed
worker on every day the run visits. -/
theorem phase1_anchor (env : Env) :
    ∀ (ws : List Worker) (s : SState), ∀ w ∈ ws, ∀ i ∈ env.dayIdx,
      AnchorSatDay env (phase1 env ws s) w.id i
  | [], _, w, hw, _, _ => absurd hw (List.not_mem_nil w)
  | w0 :: rest, s, w, hw, i, hi => by
    rcases List.mem_cons.mp hw with rfl | hw'
    · exact anchorSatDay_mono (phase1_mono env rest _) (phase1Worker_anchor env s w i hi)
    · exact phase1_anchor env rest _ w hw' i hi

/-- Helper: membership in a stable priority insertion. -/
theorem mem_insertByPriority (w x : Worker) :
    ∀ (l : List Worker), x ∈ insertByPriority w l ↔ x = w ∨ x ∈ l
  | [] => by simp [insertByPriority]
  | y :: rest => by
    unfold insertByPriority
    split_ifs with h
    · rw [List.mem_cons, mem_insertByPriority w x rest, List.mem_cons]
      tauto
    · simp only [List.mem_cons]

/-- Helper: sorting by priority preserves membership. -/
theorem mem_sortByPriority (x : Worker) :
    ∀ (l : List Worker), x ∈ sortByPriority l ↔ x ∈ l
  | [] => by simp [sortByPriority]
  | y :: rest => by
    have hstep : sortByPriority (y :: rest) = insertByPriority y (sortByPriority rest) := rfl
    rw [hstep, mem_insertByPriority, mem_sortByPriority x rest, List.mem_cons]

/-- Helper: the code's Phase 3 location search takes the head of the
guard-filtered location list. -/
theorem phase3TryLocs_eq_filterHead (env : Env) (empId date : Int) :
    ∀ (locs : List Location) (s : SState),
      phase3TryLocs env empId date s locs
        = Option.map (fun loc => assign s empId loc.id date)
            (locs.filter (fun loc => phase3Guard env s empId date loc)).head?
  | [], s => by simp [phase3TryLocs]
  | loc :: rest, s => by
    unfold phase3TryLocs
    rw [List.filter_cons]
    split_ifs with h
    · simp
    · rw [phase3TryLocs_eq_filterHead env empId date rest s]

/-- Helper: when every element scores zero preference bonus, the best-bonus
choice is simply the head. -/
theorem bestPrefLoc_all_zero (env : Env) (empId : Int) :
    ∀ (l : List Location), (∀ x ∈ l, prefBonus env empId x.id = 0) →
      bestPrefLoc env empId l = l.head?
  | [], _ => rfl
  | loc :: rest, h => by
    unfold bestPrefLoc
    rw [bestPrefLoc_all_zero env empId rest (fun x hx => h x (List.mem_cons_of_mem loc hx))]
    cases rest with
    | nil => rfl
    | cons b tail =>
      simp only [List.head?]
      rw [h loc (List.mem_cons_self loc _),
        h b (List.mem_cons_of_mem loc (List.mem_cons_self b tail))]
      simp

/-- Helper: when no location that passes the Phase 3 guard is preferred by
the worker, the spec's highest-bonus choice coincides with the code's
first-fit choice. -/
theorem phase3TryLocs_spec_eq (env : Env) (empId date : Int) (s : SState)
    (locs : List Location)
    (h : ∀ loc ∈ locs, phase3Guard env s empId date loc = true →
      loc.id ∉ env.prefMap empId) :
    phase3TryLocsSpec env empId date s locs = phase3TryLocs env empId date s locs := by
  unfold phase3TryLocsSpec
  rw [phase3TryLocs_eq_filterHead]
  rw [bestPrefLoc_all_zero env empId _ ?_]
  · cases (locs.filter (fun loc => phase3Guard env s empId date loc)).head? <;> simp
  · intro x hx
    have hmem := List.mem_filter.mp hx
    have hng := h x hmem.1 hmem.2
    simp [prefBonus, hng]

/-- Helper: under the saturation fact for the worker's remaining days, the
spec-side Phase 3 day loop equals the code's. -/
theorem phase3Days_eq (env : Env) (empId : Int) :
    ∀ (days : List Nat) (needed : Int) (s : SState),
      (∀ i ∈ days, AnchorSatDay env s empId i) →
      phase3DaysSpec env empId days needed s = phase3Days env empId days needed s
  | [], _, _, _ => rfl
  | i :: rest, needed, s, h => by
    unfold phase3Days phase3DaysSpec
    split_ifs with h1 h2
    · rfl
    · have hav := avail_dest h2
      have hnopen : ∀ loc ∈ env.locations,
          phase3Guard env s empId (env.start + (i : Int)) loc = true →
          loc.id ∉ env.prefMap empId := by
        intro loc hloc hg hPin
        have hgd := phase3Guard_dest hg
        exact h i (List.mem_cons_self i rest) hav.1 hav.2.1 hav.2.2.2 loc.id hPin
          ⟨hgd.1, hgd.2⟩
      rw [phase3TryLocs_spec_eq env empId _ s env.locations hnopen]
      rcases ht : phase3TryLocs env empId (env.start + (i : Int)) s env.locations with _ | s1
      · simp only [ht]
        exact phase3Days_eq env empId rest needed s
          (fun j hj => h j (List.mem_cons_of_mem i hj))
      · simp only [ht]
        refine phase3Days_eq env empId rest (needed - 1) s1 ?_
        intro j hj
        exact anchorSatDay_mono (phase3TryLocs_mono env empId _ env.locations s s1 ht)
          (h j (List.mem_cons_of_mem i hj))
    · exact phase3Days_eq env empId rest needed s
        (fun j hj => h j (List.mem_cons_of_mem i hj))

/-- Helper: under the saturation fact for every listed worker, the spec-side
Phase 3 worker loop equals the code's. -/
theorem phase3Fold_eq (env : Env) :
    ∀ (ws : List Worker) (s : SState),
      (∀ w ∈ ws, ∀ i ∈ env.dayIdx, AnchorSatDay env s w.id i) →
      phase3FoldSpec env ws s = phase3Fold env ws s
  | [], _, _ => rfl
  | w :: rest, s, h => by
    have hstep : phase3WorkerSpec env s w = phase3Worker env s w := by
      unfold phase3WorkerSpec phase3Worker
      exact phase3Days_eq env w.id env.dayIdx _ s (h w (List.mem_cons_self w rest))
    show phase3FoldSpec env rest (phase3WorkerSpec env s w)
        = phase3Fold env rest (phase3Worker env s w)
    rw [hstep]
    refine phase3Fold_eq env rest _ ?_
    intro w1 hw1 i hi
    exact anchorSatDay_mono (phase3Worker_mono env s w)
      (h w1 (List.mem_cons_of_mem w hw1) i hi)

/-- Helper: under the saturation fact for every roster worker, the spec-side
Phase 3 equals the code's. -/
theorem phase3_eq (env : Env) (ws : List Worker) (s : SState)
    (h : ∀ w ∈ ws, ∀ i ∈ env.dayIdx, AnchorSatDay env s w.id i) :
    phase3Spec env ws s = phase3 env ws s := by
  unfold phase3Spec phase3
  refine phase3Fold_eq env _ s ?_
  intro w hw i hi
  have hw1 := (mem_sortByPriority w _).mp hw
  exact h w (List.mem_filter.mp hw1).1 i hi

/-- Claim C3: in Phase 3, every assignment goes to a location achieving the
highest preference-bonus-only score among the locations below their staffing
max and outside the worker's forbidden set.  Formally, a smart run whose
Phase 3 picks the top-bonus candidate (the spec's description) computes
exactly the same run as the code's first-fit Phase 3: by the end of Phase 1,
an eligible not-yet-working worker never has a preferred location with
lawful space left, occupancy only grows afterwards, so in Phase 3 every
candidate location carries bonus 0 and the first fit is a top-bonus choice. -/
theorem c3_phase3_picks_top_preference_score (env : Env) :
    smartRunSpec3 env = smartRun env := by
  show phase3Spec env (sortByPriority env.employees)
      (phase2 env (sortByPriority env.employees)
        (phase1 env (sortByPriority env.employees) initState))
    = phase3 env (sortByPriority env.employees)
      (phase2 env (sortByPriority env.employees)
        (phase1 env (sortByPriority env.employees) initState))
  refine phase3_eq env (sortByPriority env.employees) _ ?_
  intro w hw i hi
  exact anchorSatDay_mono (phase2_mono env _ _)
    (phase1_anchor env (sortByPriority env.employees) initState w hw i hi)

/-- Witness for the amended C2 at a concrete run with Phase-1 shifts. -/
theorem c2_amended_phase1_only_preferred_witness :
    (⟨1, 1, 0⟩ : Shift)
        ∈ (phase1 envTwoFans (sortByPriority envTwoFans.employees) initState).shifts
      ∧ (⟨1, 1, 0⟩ : Shift).location_id
          ∈ envTwoFans.prefMap (⟨1, 1, 0⟩ : Shift).employee_id := by
  have hm : (⟨1, 1, 0⟩ : Shift)
      ∈ (phase1 envTwoFans (sortByPriority envTwoFans.employees) initState).shifts := by
    decide
  exact ⟨hm, c2_amended_phase1_only_preferred envTwoFans ⟨1, 1, 0⟩ hm⟩
